import Mathlib

/-!
Verification of the uwsgiconf option-store engine (`uwsgiconf/base.py`,
`uwsgiconf/options/applications.py`, `uwsgiconf/options/routing.py`) against
its specification.

The shallow embedding models Python values with the inductive `Val`, the
per-Section option store (`Section._opts`) as an ordered association list
keyed by the option key's string form, and the mutation primitive
`OptionsGroup._set` as a function from store to store in the `Except` monad
(a raised Python exception is `Except.error`).

`Section`, `Configuration`, `utils.listify` and the exceptions module are not
part of the provided sources; where their behaviour decides a property they
are modelled from the specification, and each such definition says so in its
doc comment.
-/

namespace Uwsgiconf

/-- A dynamically-typed Python value, as the engine passes them around:
`None`, strings, booleans, integers, lists, tuples, and `ParametrizedValue`
objects.  A `ParametrizedValue` is represented by the fields the mutation
primitive reads: its `opt_key` attribute, its `plugin` attribute (a string
or `None`), its `_opts` sub-mapping, and its rendered string form
(`__str__`). -/
inductive Val where
  | pynone
  | str (s : String)
  | bool (b : Bool)
  | int (n : Int)
  | list (xs : List Val)
  | tuple (xs : List Val)
  | param (optKey : Option String) (plugin : Option String)
      (subOpts : List (String × Val)) (render : String)
deriving Repr

/-- Python truthiness of a value (`bool(v)`).  A `ParametrizedValue` object
defines neither `__bool__` nor `__len__`, so it is always truthy. -/
def Val.truthy : Val → Bool
  | .pynone => false
  | .str s => s ≠ ""
  | .bool b => b
  | .int n => n ≠ 0
  | .list xs => !xs.isEmpty
  | .tuple xs => !xs.isEmpty
  | .param _ _ _ _ => true

/-- Python `str(v)` for the values the engine stringifies: atoms and
`ParametrizedValue` objects (whose `__str__` is its `render` field).  The
engine only applies `str` to tuple elements and stored atoms, never to
nested containers, so containers get a bracketed join. -/
def Val.toStr : Val → String
  | .pynone => "None"
  | .str s => s
  | .bool b => if b then "True" else "False"
  | .int n => toString n
  | .list xs => "[" ++ String.intercalate ", " (xs.attach.map (fun x => x.1.toStr)) ++ "]"
  | .tuple xs => "(" ++ String.intercalate ", " (xs.attach.map (fun x => x.1.toStr)) ++ ")"
  | .param _ _ _ render => render
decreasing_by
  all_goals
    simp_wf
    have := List.sizeOf_lt_of_mem x.2
    omega

/-- An exception raised by the embedded code, by kind:
`configuration` is `uwsgiconf.exceptions.ConfigurationError` (modelled from
the spec: `exceptions.py` is not among the provided sources, the spec names
a configuration-error kind raised to callers), `attr` is Python's
`AttributeError`, `typeErr` is Python's `TypeError`. -/
inductive PyErr where
  | configuration (msg : String)
  | attr (msg : String)
  | typeErr (msg : String)
deriving Repr, DecidableEq

/-- Message of the `AttributeError` raised by `list.extend` on a non-list. -/
def extendErrMsg : String := "object has no attribute extend"

/-- The Option Store of one Section (`Section._opts`): an ordered mapping
from the key's current string form to a value.  Modelled from the spec:
`Section` lives in `config.py`, which is not among the provided sources;
the spec fixes its store to an ordered mapping whose keys are compared and
looked up by their current string form, so the store is embedded as an
ordered association list over `String` with at most one entry per key. -/
abbrev Store := List (String × Val)

/-- Ordered-mapping lookup (`opts[key]` / `opts.get(key)`): the value of the
entry whose key equals `k`. -/
def Store.lookupVal : Store → String → Option Val
  | [], _ => Option.none
  | (k', v) :: rest, k => if k' = k then some v else Store.lookupVal rest k

/-- Ordered-mapping deletion (`del opts[key]` guarded by `except KeyError:
pass`): drop the entry for `k` if present; absent keys are a no-op. -/
def Store.eraseKey : Store → String → Store
  | [], _ => []
  | (k', v) :: rest, k =>
      if k' = k then Store.eraseKey rest k else (k', v) :: Store.eraseKey rest k

/-- Ordered-mapping assignment (`opts[key] = value`): replace the value in
place if `k` is present (keeping its position), otherwise append a new entry
at the end. -/
def Store.updateVal : Store → String → Val → Store
  | [], k, v => [(k, v)]
  | (k', v') :: rest, k, v =>
      if k' = k then (k, v) :: rest else (k', v') :: Store.updateVal rest k v

/-- `opts.update(mapping)`: assign every pair of `mapping` in order. -/
def Store.updateMany (st : Store) (kvs : List (String × Val)) : Store :=
  kvs.foldl (fun st kv => st.updateVal kv.1 kv.2) st

/-- `opts.setdefault(key, []).extend(values)`: append `vs` to the list under
`k`, creating the entry if absent.  If the existing value is not a list,
Python raises `AttributeError` (`extend` on a non-list). -/
def Store.appendMulti (st : Store) (k : String) (vs : List Val) : Except PyErr Store :=
  match st.lookupVal k with
  | Option.none => Except.ok (st ++ [(k, Val.list vs)])
  | some (Val.list xs) => Except.ok (st.updateVal k (Val.list (xs ++ vs)))
  | some _ => Except.error (PyErr.attr extendErrMsg)

/-- The keys of the store, in order. -/
def Store.keys (st : Store) : List String := st.map Prod.fst

/-- The store invariant: each key string maps to at most one entry. -/
def Store.keysNodup (st : Store) : Prop := st.keys.Nodup

/-- Modelled from the spec: `utils.listify` (in `utils.py`, not among the
provided sources) normalizes a value to a list — a list is returned as is,
anything else is wrapped in a singleton list. -/
def listify (v : Val) : List Val :=
  match v with
  | .list xs => xs
  | v => [v]

/-- The `condition` argument of `OptionsGroup._set`: the Python literal
`True` acts as a sentinel ("test value is not None"), `None` and arbitrary
objects (captured by their truthiness) are passed through. -/
inductive Cond where
  | sentinelTrue
  | pynone
  | val (truthy : Bool)
deriving Repr, DecidableEq

/-- Resolution of the condition against the value, combining
`if condition is True: condition = value is not None` with the guard
`if condition is None or condition:` of `_set`. -/
def Cond.proceeds : Cond → Val → Bool
  | .sentinelTrue, v => match v with | .pynone => false | _ => true
  | .pynone, _ => true
  | .val t, _ => t

/-- The class-level `plugin` attribute of an `OptionsGroup`:
`False`, `True`, or a plugin name string. -/
inductive PluginAttr where
  | pfalse
  | ptrue
  | pname (s : String)
deriving Repr, DecidableEq

/-- The slice of an `OptionsGroup` object that `_set` reads: its `plugin`
class attribute and its display name (`str(group)`, via `_get_name`). -/
structure Group where
  plugin : PluginAttr
  name : String
deriving Repr, DecidableEq

/-- A plain option group: not plugin-backed (`plugin = False`). -/
def Group.plain : Group := ⟨PluginAttr.pfalse, ""⟩

/-- Modelled from the spec: the nested `set_plugin` helper of `_set` calls
`Section.set_plugins_params(plugins=name)` (in `config.py`, not among the
provided sources), which registers the stringified plugin name as one more
element of the list value under the `plugin` key — multiplicity-aware,
names accumulate and duplicates are allowed. -/
def setPlugins (name : String) (st : Store) : Except PyErr Store :=
  st.appendMulti "plugin" [Val.str name]

/-- `key.swap(val.opt_key or key)`: the key is replaced by `opt_key`'s
string form when `opt_key` is truthy, otherwise it keeps its value (the
`or` falls back to the key object itself, whose swap-in is the
identity). -/
def swapKey (optKey : Option String) (key : String) : String :=
  match optKey with
  | some s => if s ≠ "" then s else key
  | Option.none => key

/-- `if p: set_plugin(p)` — activate a plugin name when it is truthy. -/
def pluginOpt (plugin : Option String) (st : Store) : Except PyErr Store :=
  match plugin with
  | some s => if s ≠ "" then setPlugins s st else pure st
  | Option.none => pure st

/-- `if val._opts: opts.update(val._opts)` — merge a `ParametrizedValue`'s
own sub-options directly into the store. -/
def mergeSub (subOpts : List (String × Val)) (st : Store) : Store :=
  if subOpts.isEmpty then st else st.updateMany subOpts

/-- The nested `handle_plugin_required` helper of `_set`: when the value is
a `ParametrizedValue`, swap the target key to the value's `opt_key` (when
truthy), activate the value's own plugin requirement (when truthy), and
merge the value's `_opts` sub-mapping directly into the store.  Returns the
(possibly swapped) key and the new store. -/
def handlePluginRequired (v : Val) (key : String) (st : Store) :
    Except PyErr (String × Store) :=
  match v with
  | .param optKey plug subOpts _ => do
      let st ← pluginOpt plug st
      pure (swapKey optKey key, mergeSub subOpts st)
  | _ => pure (key, st)

/-- `list(map(handle_plugin_required, values))` (and the `multi` loop):
process each element in order, threading the key and the store. -/
def handleAll : List Val → String → Store → Except PyErr (String × Store)
  | [], key, st => pure (key, st)
  | x :: rest, key, st => do
      let (key, st) ← handlePluginRequired x key st
      handleAll rest key st

/-- The re-insertion loop of the nested `handle_priority` helper: emit the
remaining entries in order, placing `(k, v)` just before the entry at
zero-based position `p`; if `p` is not reached (it is at least the number
of remaining entries) the pair is never emitted. -/
def insertPrio (k : String) (v : Val) : Nat → List (String × Val) → Store
  | _, [] => []
  | 0, it :: rest => (k, v) :: it :: rest
  | p + 1, it :: rest => it :: insertPrio k v p rest

/-- The nested `handle_priority` helper in its `use_list` form (the `multi`
branch): pop the existing entry for `k` (defaulting to the empty list),
extend it with the new values (`AttributeError` when the existing value is
not a list), and re-insert at position `p` among the other entries. -/
def handlePriorityList (k : String) (vs : List Val) (p : Nat) (st : Store) :
    Except PyErr Store :=
  match st.lookupVal k with
  | Option.none => Except.ok (insertPrio k (Val.list vs) p (st.eraseKey k))
  | some (Val.list xs) => Except.ok (insertPrio k (Val.list (xs ++ vs)) p (st.eraseKey k))
  | some _ => Except.error (PyErr.attr extendErrMsg)

/-- The plugin-activation steps of `_set`: `if self.plugin is True:
set_plugin(self)` followed by `if plugin: set_plugin(plugin)`. -/
def pluginStage (g : Group) (plugin : Option String) (st : Store) :
    Except PyErr Store := do
  let st ← if g.plugin = PluginAttr.ptrue then setPlugins g.name st else pure st
  pluginOpt plugin st

/-- The tuple-composition step of `_set`: a tuple value has each part
processed by `handle_plugin_required`, then all parts are joined into one
space-separated string.  Other values pass through unchanged. -/
def tupleStage (value : Val) (key : String) (st : Store) :
    Except PyErr (String × Val × Store) :=
  match value with
  | .tuple xs => do
      let (key, st) ← handleAll xs key st
      pure (key, Val.str (String.intercalate " " (xs.map Val.toStr)), st)
  | v => pure (key, v, st)

/-- The `multi` branch of `_set`: normalize the value to a list, run
`handle_plugin_required` over each element, then either re-order by
priority (`use_list`) or append to the existing list entry. -/
def multiBranch (key : String) (value : Val) (priority : Option Nat)
    (st : Store) : Except PyErr Store := do
  let vs := listify value
  let (key, st) ← handleAll vs key st
  match priority with
  | some p => handlePriorityList key vs p st
  | Option.none => st.appendMulti key vs

/-- The non-`multi` branch of `_set`: run `handle_plugin_required` on the
value, then either re-order by priority (the popped existing value is
discarded) or assign the value under the key. -/
def singleBranch (key : String) (value : Val) (priority : Option Nat)
    (st : Store) : Except PyErr Store := do
  let (key, st) ← handlePluginRequired value key st
  match priority with
  | some p => Except.ok (insertPrio key value p (st.eraseKey key))
  | Option.none => Except.ok (st.updateVal key value)

/-- The remainder of `_set` after the plugin-activation stage: tuple
composition, then the `multi` or plain assignment branch. -/
def afterPlugin (key : String) (value : Val) (multi : Bool)
    (priority : Option Nat) (st : Store) : Except PyErr Store :=
  tupleStage value key st >>= fun r =>
  if multi then multiBranch r.1 r.2.1 priority r.2.2
  else singleBranch r.1 r.2.1 priority r.2.2

/-- The mutation primitive `OptionsGroup._set(key, value, condition, cast,
multi, plugin, priority)` acting on the owning Section's store.
`castBool` is `cast is bool`, `priority` is the priority index. -/
def OptionsGroup.set_ (g : Group) (key : String) (value : Val) (condition : Cond)
    (castBool : Bool) (multi : Bool) (plugin : Option String)
    (priority : Option Nat) (st : Store) : Except PyErr Store :=
  if condition.proceeds value then
    if castBool && !value.truthy then
      Except.ok (st.eraseKey key)
    else
      let value := if castBool then Val.str "true" else value
      pluginStage g plugin st >>=
        afterPlugin key value multi priority
  else Except.ok st

/-- The list value under `k` seen as `handle_priority`/`setdefault` see it:
the stored list, the empty list when `k` is absent, and undefined
(`Option.none`) when the stored value is not a list. -/
def Store.getListD (st : Store) (k : String) : Option (List Val) :=
  match st.lookupVal k with
  | Option.none => some []
  | some (Val.list xs) => some xs
  | some _ => Option.none

/-- A value that is neither a tuple nor a `ParametrizedValue`: passing
through `_set` it triggers no key substitution, no plugin activation and no
nested-contribution merge. -/
def Val.plain : Val → Bool
  | .tuple _ => false
  | .param _ _ _ _ => false
  | _ => true

/-- One invocation of the mutation primitive, with all its arguments. -/
structure SetCall where
  group : Group
  key : String
  value : Val
  condition : Cond
  castBool : Bool
  multi : Bool
  plugin : Option String
  priority : Option Nat

/-- A sequence of mutation-primitive calls applied to a store in order. -/
def applyCalls : List SetCall → Store → Except PyErr Store
  | [], st => Except.ok st
  | c :: rest, st => do
      let st ← OptionsGroup.set_ c.group c.key c.value c.condition c.castBool
        c.multi c.plugin c.priority st
      applyCalls rest st

/-- The base `OptionsGroup.set_basic_params(*args, **kwargs)`: accepts any
keyword arguments and performs no store mutation (it only returns the
owning section). -/
def OptionsGroup.set_basic_params (kwargs : List (String × Val)) (st : Store) :
    Except PyErr Store :=
  let _ := kwargs
  Except.ok st

/-- The base `OptionsGroup.__init__(*args, **kwargs)`: pops `_section` and
eagerly forwards all arguments to `set_basic_params`. -/
def OptionsGroup.init (kwargs : List (String × Val)) (st : Store) :
    Except PyErr Store :=
  OptionsGroup.set_basic_params kwargs st

/-- The keyword parameters declared by `Applications.set_basic_params`. -/
def Applications.paramNames : List String :=
  ["exit_if_none", "max_per_worker", "single_interpreter", "no_default"]

/-- Python keyword-argument binding for one declared parameter: the
supplied value, or the default `None` when the keyword is missing. -/
def bindKw (kwargs : List (String × Val)) (name : String) : Val :=
  match kwargs.lookup name with
  | some v => v
  | Option.none => Val.pynone

/-- `Applications.set_basic_params(exit_if_none=None, max_per_worker=None,
single_interpreter=None, no_default=None)`: a fixed-signature method, so a
keyword outside the declared parameters raises `TypeError` at the call;
otherwise the four `_set` calls of the body run in order.  `Applications`
inherits `plugin = False`. -/
def Applications.set_basic_params (kwargs : List (String × Val)) (st : Store) :
    Except PyErr Store :=
  if kwargs.all (fun kv => Applications.paramNames.contains kv.1) then do
    let st ← OptionsGroup.set_ Group.plain "need-app" (bindKw kwargs "exit_if_none")
      Cond.sentinelTrue true false Option.none Option.none st
    let st ← OptionsGroup.set_ Group.plain "max-apps" (bindKw kwargs "max_per_worker")
      Cond.sentinelTrue false false Option.none Option.none st
    let st ← OptionsGroup.set_ Group.plain "single-interpreter" (bindKw kwargs "single_interpreter")
      Cond.sentinelTrue true false Option.none Option.none st
    let st ← OptionsGroup.set_ Group.plain "no-default-app" (bindKw kwargs "no_default")
      Cond.sentinelTrue true false Option.none Option.none st
    pure st
  else
    Except.error (PyErr.typeErr "set_basic_params() got an unexpected keyword argument")

/-- `Applications.__init__` (inherited from `OptionsGroup`): eagerly
forwards all initializer keyword arguments to the group's own
`set_basic_params`. -/
def Applications.init (kwargs : List (String × Val)) (st : Store) :
    Except PyErr Store :=
  Applications.set_basic_params kwargs st

/-- The status codes supported by `Routing.set_error_page`. -/
def errorPageStatuses : List Int := [403, 404, 500]

/-- `Routing.set_error_page(status, html_fpath)`: raise a
`ConfigurationError` for a status outside the supported set, otherwise add
`error-page-<status>` as a multi option holding the page path.  `Routing`
inherits `plugin = False`. -/
def Routing.set_error_page (status : Int) (htmlFpath : String) (st : Store) :
    Except PyErr Store :=
  if status ∈ errorPageStatuses then
    OptionsGroup.set_ Group.plain ("error-page-" ++ toString status) (Val.str htmlFpath)
      Cond.sentinelTrue false true Option.none Option.none st
  else
    Except.error (PyErr.configuration
      ("Code `" ++ toString status ++ "` for `routing.set_error_page()` is unsupported. Supported: "
        ++ String.intercalate ", " (errorPageStatuses.map toString)))

/-- Modelled from the spec: the slice of a `Section` (class in `config.py`,
not among the provided sources) that `Configuration.format` reads — its
name (`Option.none` when unnamed) and its option store. -/
structure SectionR where
  name : Option String
  opts : Store

/-- Modelled from the spec: rendering of one Section — a `[name]` header
(the default placeholder `uwsgi` for an unnamed section) followed by one
`key = value` line per entry, with one line per element for a list
value. -/
def SectionR.render (s : SectionR) : String :=
  let header := "[" ++ (match s.name with | some n => n | Option.none => "uwsgi") ++ "]"
  let line := fun (k : String) (v : Val) => k ++ " = " ++ v.toStr
  let lines := s.opts.foldr (fun e acc =>
    (match e.2 with
     | Val.list xs => xs.map (fun v => line e.1 v)
     | v => [line e.1 v]) ++ acc) []
  String.intercalate "\n" (header :: lines)

/-- A member of a `Configuration`'s collection: a `Section`, or some other
value (carried with its display form, used in the error message). -/
inductive ConfItem where
  | sec (s : SectionR)
  | nonSection (display : String)

/-- Whether a member is a `Section` instance. -/
def ConfItem.isSec : ConfItem → Bool
  | .sec _ => true
  | .nonSection _ => false

/-- Display form of a member, as interpolated into the type error. -/
def ConfItem.display : ConfItem → String
  | .sec s => s.render
  | .nonSection d => d

/-- Rendering of one configuration member (only reached for Sections). -/
def ConfItem.render : ConfItem → String
  | .sec s => s.render
  | .nonSection d => d

/-- The names of the Section members, in order (`None` for unnamed). -/
def sectionNames (items : List ConfItem) : List (Option String) :=
  items.filterMap (fun it =>
    match it with
    | .sec s => some s.name
    | .nonSection _ => Option.none)

/-- Modelled from the spec: `Configuration.format` (class in `config.py`,
not among the provided sources) — validate that every member is a Section
(else raise a `ConfigurationError` naming the offending value), validate
that Section names are pairwise distinct, two unnamed sections clashing as
well (else raise a uniqueness `ConfigurationError`), then concatenate each
Section's rendering separated by blank lines. -/
def Configuration.format (items : List ConfItem) : Except PyErr String :=
  match items.find? (fun it => !it.isSec) with
  | some bad =>
      Except.error (PyErr.configuration ("`" ++ bad.display ++ "` must be a Section"))
  | Option.none =>
      if (sectionNames items).Nodup then
        Except.ok (String.intercalate "\n\n" (items.map ConfItem.render))
      else
        Except.error (PyErr.configuration "Section names must be unique")

/-- One live `OptionsGroup` instance as cached by a Section: the group type
it instantiates, the id of the Section it is bound to (its `_section`
binding), and a construction counter distinguishing distinct instances. -/
structure GroupInst where
  typeName : String
  sectionId : Nat
  instId : Nat
deriving Repr, DecidableEq

/-- The slice of the object a descriptor access targets: an object
identity, the `_options_objects` cache (`Option.none` models an object
without that attribute), and a counter supplying fresh instance ids. -/
structure SectionObj where
  id : Nat
  optionsObjects : Option (List (String × GroupInst))
  nextId : Nat
deriving Repr, DecidableEq

/-- The result of an `Options.__get__` access: the option-group type
itself, or a live instance. -/
inductive GetResult where
  | typeRef (typeName : String)
  | inst (g : GroupInst)
deriving Repr, DecidableEq

/-- `section._options_objects[key] = options_obj`: assignment into the
cache mapping. -/
def cacheUpdate : List (String × GroupInst) → String → GroupInst → List (String × GroupInst)
  | [], k, g => [(k, g)]
  | (k', g') :: rest, k, g =>
      if k' = k then (k, g) :: rest else (k', g') :: cacheUpdate rest k g

/-- `Options.__get__(section, section_cls)`: accessing an option-group
attribute of type `optType` through the descriptor.  `Option.none` as the
target is access through the class (`section is None`); a target whose
`optionsObjects` is `Option.none` has no `_options_objects` attribute, so
the lookup raises `AttributeError` inside the `try` and the option-group
type itself is returned.  Otherwise the cached instance is returned if
present (and re-stored), or a fresh instance bound to this Section is
constructed and cached. -/
def Options.get (optType : String) : Option SectionObj → GetResult × Option SectionObj
  | Option.none => (GetResult.typeRef optType, Option.none)
  | some s =>
    match s.optionsObjects with
    | Option.none => (GetResult.typeRef optType, some s)
    | some cache =>
      match cache.lookup optType with
      | some obj =>
          (GetResult.inst obj,
           some { s with optionsObjects := some (cacheUpdate cache optType obj) })
      | Option.none =>
          let obj : GroupInst := ⟨optType, s.id, s.nextId⟩
          (GetResult.inst obj,
           some { s with
                  optionsObjects := some (cacheUpdate cache optType obj)
                  nextId := s.nextId + 1 })

/-! ### Lemmas about the store primitives -/

@[simp]
theorem ok_bind {α β : Type} (a : α) (f : α → Except PyErr β) :
    (Except.ok a >>= f) = f a := rfl

@[simp]
theorem error_bind {α β : Type} (e : PyErr) (f : α → Except PyErr β) :
    (Except.error e >>= f : Except PyErr β) = Except.error e := rfl

theorem lookupVal_eq_none {st : Store} {k : String} :
    st.lookupVal k = Option.none ↔ k ∉ st.keys := by
  induction st with
  | nil => simp [Store.lookupVal, Store.keys]
  | cons e rest ih =>
    obtain ⟨k', v⟩ := e
    by_cases h : k' = k
    · simp [Store.lookupVal, Store.keys, h] at ih ⊢
    · simp [Store.lookupVal, Store.keys, h] at ih ⊢
      simp [ih, Ne.symm h]

theorem eraseKey_eq_self {st : Store} {k : String}
    (h : st.lookupVal k = Option.none) : st.eraseKey k = st := by
  induction st with
  | nil => rfl
  | cons e rest ih =>
    obtain ⟨k', v⟩ := e
    rw [Store.lookupVal] at h
    by_cases hk : k' = k
    · simp [hk] at h
    · rw [if_neg hk] at h
      rw [Store.eraseKey, if_neg hk, ih h]

theorem mem_keys_eraseKey {st : Store} {k x : String}
    (h : x ∈ (st.eraseKey k).keys) : x ∈ st.keys := by
  induction st with
  | nil => exact h
  | cons e rest ih =>
    obtain ⟨k', v⟩ := e
    rw [Store.eraseKey] at h
    by_cases hk : k' = k
    · rw [if_pos hk] at h
      exact List.mem_cons_of_mem _ (ih h)
    · rw [if_neg hk] at h
      rw [Store.keys, List.map_cons] at h ⊢
      rcases List.mem_cons.mp h with h' | h'
      · exact List.mem_cons.mpr (Or.inl h')
      · exact List.mem_cons.mpr (Or.inr (ih h'))

theorem keysNodup_eraseKey {st : Store} (k : String) (h : st.keysNodup) :
    (st.eraseKey k).keysNodup := by
  induction st with
  | nil => exact h
  | cons e rest ih =>
    obtain ⟨k', v⟩ := e
    rw [Store.keysNodup, Store.keys, List.map_cons, List.nodup_cons] at h
    obtain ⟨hk', hrest⟩ := h
    rw [Store.eraseKey]
    by_cases hk : k' = k
    · rw [if_pos hk]
      exact ih hrest
    · rw [if_neg hk]
      rw [Store.keysNodup, Store.keys, List.map_cons, List.nodup_cons]
      exact ⟨fun hmem => hk' (mem_keys_eraseKey hmem), ih hrest⟩

theorem not_mem_keys_eraseKey {st : Store} {k : String} :
    k ∉ (st.eraseKey k).keys := by
  induction st with
  | nil => simp [Store.eraseKey, Store.keys]
  | cons e rest ih =>
    obtain ⟨k', v⟩ := e
    rw [Store.eraseKey]
    by_cases hk : k' = k
    · rw [if_pos hk]; exact ih
    · rw [if_neg hk]
      rw [Store.keys, List.map_cons]
      intro h
      rcases List.mem_cons.mp h with h' | h'
      · exact hk h'.symm
      · exact ih h'

theorem keys_updateVal {st : Store} {k : String} {v : Val} :
    (st.updateVal k v).keys = if k ∈ st.keys then st.keys else st.keys ++ [k] := by
  induction st with
  | nil => simp [Store.updateVal, Store.keys]
  | cons e rest ih =>
    obtain ⟨k', v'⟩ := e
    by_cases hk : k' = k
    · subst hk
      simp [Store.updateVal, Store.keys]
    · simp only [Store.keys] at ih ⊢
      rw [Store.updateVal, if_neg hk, List.map_cons, ih, List.map_cons]
      by_cases hmem : k ∈ List.map Prod.fst rest
      · rw [if_pos hmem, if_pos (List.mem_cons.mpr (Or.inr hmem))]
      · have hnot : k ∉ k' :: List.map Prod.fst rest := by
          intro hcon
          rcases List.mem_cons.mp hcon with h' | h'
          · exact hk h'.symm
          · exact hmem h'
        rw [if_neg hmem, if_neg hnot, List.cons_append]

theorem keysNodup_updateVal {st : Store} (k : String) (v : Val)
    (h : st.keysNodup) : (st.updateVal k v).keysNodup := by
  rw [Store.keysNodup, keys_updateVal]
  by_cases hmem : k ∈ st.keys
  · rw [if_pos hmem]; exact h
  · rw [if_neg hmem]
    rw [List.nodup_append]
    exact ⟨h, List.nodup_singleton k, by simpa using fun hk => hmem hk⟩

theorem lookupVal_updateVal_self {st : Store} {k : String} {v : Val} :
    (st.updateVal k v).lookupVal k = some v := by
  induction st with
  | nil => simp [Store.updateVal, Store.lookupVal]
  | cons e rest ih =>
    obtain ⟨k', v'⟩ := e
    by_cases hk : k' = k <;> simp [Store.updateVal, Store.lookupVal, hk, ih]

theorem lookupVal_updateVal_ne {st : Store} {k k' : String} {v : Val}
    (h : k' ≠ k) : (st.updateVal k v).lookupVal k' = st.lookupVal k' := by
  induction st with
  | nil => simp [Store.updateVal, Store.lookupVal, Ne.symm h]
  | cons e rest ih =>
    obtain ⟨k₀, v₀⟩ := e
    by_cases hk : k₀ = k
    · subst hk
      simp [Store.updateVal, Store.lookupVal, Ne.symm h]
    · simp [Store.updateVal, Store.lookupVal, hk, ih]

theorem eraseKey_updateVal {st : Store} {k : String} {v : Val} :
    (st.updateVal k v).eraseKey k = st.eraseKey k := by
  induction st with
  | nil => simp [Store.updateVal, Store.eraseKey]
  | cons e rest ih =>
    obtain ⟨k', v'⟩ := e
    by_cases hk : k' = k
    · subst hk
      rw [Store.updateVal, if_pos rfl, Store.eraseKey, if_pos rfl,
        Store.eraseKey, if_pos rfl]
    · rw [Store.updateVal, if_neg hk, Store.eraseKey, if_neg hk,
        Store.eraseKey, if_neg hk, ih]

theorem lookupVal_append_not_found {st : Store} {k : String} {v : Val}
    (h : st.lookupVal k = Option.none) :
    (st ++ [(k, v)] : Store).lookupVal k = some v := by
  induction st with
  | nil => simp [Store.lookupVal]
  | cons e rest ih =>
    obtain ⟨k', v'⟩ := e
    rw [Store.lookupVal] at h
    by_cases hk : k' = k
    · simp [hk] at h
    · rw [if_neg hk] at h
      simp only [List.cons_append, Store.lookupVal, if_neg hk]
      exact ih h

theorem getListD_appendMulti {st : Store} {k : String} {xs : List Val}
    (vs : List Val) (h : st.getListD k = some xs) :
    ∃ st', st.appendMulti k vs = Except.ok st' ∧
      st'.getListD k = some (xs ++ vs) := by
  rw [Store.getListD] at h
  rcases hlk : st.lookupVal k with _ | v
  · rw [hlk] at h
    simp only [Option.some.injEq] at h
    subst h
    refine ⟨st ++ [(k, Val.list vs)], ?_, ?_⟩
    · rw [Store.appendMulti, hlk]
    · rw [Store.getListD, lookupVal_append_not_found hlk]
      simp
  · rw [hlk] at h
    cases v with
    | list ys =>
        simp only [Option.some.injEq] at h
        subst h
        refine ⟨st.updateVal k (Val.list (ys ++ vs)), ?_, ?_⟩
        · simp [Store.appendMulti, hlk]
        · simp [Store.getListD, lookupVal_updateVal_self]
    | pynone => simp at h
    | str s => simp at h
    | bool b => simp at h
    | int n => simp at h
    | tuple ys => simp at h
    | param a b c d => simp at h

theorem getListD_updateVal_ne {st : Store} {k k' : String} {v : Val}
    (h : k' ≠ k) : (st.updateVal k v).getListD k' = st.getListD k' := by
  rw [Store.getListD, Store.getListD, lookupVal_updateVal_ne h]

theorem keysNodup_appendMulti {st st' : Store} {k : String} {vs : List Val}
    (hok : st.appendMulti k vs = Except.ok st') (h : st.keysNodup) :
    st'.keysNodup := by
  rw [Store.appendMulti] at hok
  rcases hlk : st.lookupVal k with _ | v
  · rw [hlk] at hok
    simp only [Except.ok.injEq] at hok
    subst hok
    rw [Store.keysNodup, Store.keys, List.map_append, List.nodup_append]
    refine ⟨h, by simp, ?_⟩
    simp only [List.map_cons, List.map_nil]
    intro a ha hb
    rw [List.mem_singleton] at hb
    subst hb
    exact lookupVal_eq_none.mp hlk ha
  · rw [hlk] at hok
    cases v with
    | list ys =>
        simp only [Except.ok.injEq] at hok
        subst hok
        exact keysNodup_updateVal k _ h
    | pynone => simp at hok
    | str s => simp at hok
    | bool b => simp at hok
    | int n => simp at hok
    | tuple ys => simp at hok
    | param a b c d => simp at hok

theorem keysNodup_updateMany {kvs : List (String × Val)} :
    ∀ {st : Store}, st.keysNodup → (st.updateMany kvs).keysNodup := by
  induction kvs with
  | nil => intro st h; exact h
  | cons kv rest ih =>
    intro st h
    rw [Store.updateMany, List.foldl_cons]
    exact ih (keysNodup_updateVal kv.1 kv.2 h)

theorem mem_keys_insertPrio {k x : String} {v : Val} :
    ∀ {p : Nat} {items : List (String × Val)},
      x ∈ (insertPrio k v p items).keys → x ∈ Store.keys items ∨ x = k := by
  intro p
  induction p with
  | zero =>
    intro items h
    cases items with
    | nil => simp [insertPrio, Store.keys] at h
    | cons it rest =>
      rw [insertPrio, Store.keys, List.map_cons, List.map_cons] at h
      rcases List.mem_cons.mp h with h' | h'
      · right; exact h'
      · left; exact h'
  | succ p ih =>
    intro items h
    cases items with
    | nil => simp [insertPrio, Store.keys] at h
    | cons it rest =>
      rw [insertPrio, Store.keys, List.map_cons] at h
      rcases List.mem_cons.mp h with h' | h'
      · left; rw [Store.keys, List.map_cons]; exact List.mem_cons.mpr (Or.inl h')
      · rcases ih h' with h'' | h''
        · left; rw [Store.keys, List.map_cons]; exact List.mem_cons.mpr (Or.inr h'')
        · right; exact h''

theorem keysNodup_insertPrio {k : String} {v : Val} :
    ∀ {p : Nat} {items : List (String × Val)},
      k ∉ Store.keys items → (Store.keys items).Nodup →
      (insertPrio k v p items).keysNodup := by
  intro p
  induction p with
  | zero =>
    intro items hk hnd
    cases items with
    | nil => simp [insertPrio, Store.keysNodup, Store.keys]
    | cons it rest =>
      rw [insertPrio]
      rw [Store.keysNodup, Store.keys, List.map_cons, List.nodup_cons]
      exact ⟨by simpa [Store.keys] using hk, hnd⟩
  | succ p ih =>
    intro items hk hnd
    cases items with
    | nil => simp [insertPrio, Store.keysNodup, Store.keys]
    | cons it rest =>
      rw [Store.keys, List.map_cons, List.nodup_cons] at hnd
      rw [Store.keys, List.map_cons, List.mem_cons] at hk
      push_neg at hk
      rw [insertPrio, Store.keysNodup, Store.keys, List.map_cons, List.nodup_cons]
      constructor
      · intro hmem
        rcases mem_keys_insertPrio hmem with h' | h'
        · exact hnd.1 h'
        · exact hk.1 h'.symm
      · exact ih hk.2 hnd.2

theorem insertPrio_get {k : String} {v : Val} :
    ∀ {p : Nat} {items : List (String × Val)}, p < items.length →
      (insertPrio k v p items).get? p = some (k, v) := by
  intro p
  induction p with
  | zero =>
    intro items hp
    cases items with
    | nil => simp at hp
    | cons it rest => rfl
  | succ p ih =>
    intro items hp
    cases items with
    | nil => simp at hp
    | cons it rest =>
      rw [insertPrio, List.get?]
      exact ih (Nat.lt_of_succ_lt_succ hp)

theorem insertPrio_eraseIdx {k : String} {v : Val} :
    ∀ {p : Nat} {items : List (String × Val)}, p < items.length →
      (insertPrio k v p items).eraseIdx p = items := by
  intro p
  induction p with
  | zero =>
    intro items hp
    cases items with
    | nil => simp at hp
    | cons it rest => rfl
  | succ p ih =>
    intro items hp
    cases items with
    | nil => simp at hp
    | cons it rest =>
      rw [insertPrio, List.eraseIdx]
      rw [ih (Nat.lt_of_succ_lt_succ hp)]

/-! ### Preservation of the single-entry-per-key invariant -/

theorem keysNodup_setPlugins {name : String} {st st' : Store}
    (hok : setPlugins name st = Except.ok st') (h : st.keysNodup) :
    st'.keysNodup :=
  keysNodup_appendMulti hok h

theorem handlePluginRequired_plain {v : Val} (h : v.plain = true)
    (key : String) (st : Store) :
    handlePluginRequired v key st = Except.ok (key, st) := by
  cases v with
  | tuple xs => simp [Val.plain] at h
  | param a b c d => simp [Val.plain] at h
  | pynone => rfl
  | str s => rfl
  | bool b => rfl
  | int n => rfl
  | list xs => rfl

theorem keysNodup_pluginOpt {plugin : Option String} {st st' : Store}
    (hok : pluginOpt plugin st = Except.ok st') (h : st.keysNodup) :
    st'.keysNodup := by
  cases plugin with
  | none => cases hok; exact h
  | some s =>
    rw [pluginOpt] at hok
    by_cases hs : s ≠ ""
    · rw [if_pos hs] at hok
      exact keysNodup_setPlugins hok h
    · rw [if_neg hs] at hok
      cases hok
      exact h

theorem keysNodup_mergeSub {subOpts : List (String × Val)} {st : Store}
    (h : st.keysNodup) : (mergeSub subOpts st).keysNodup := by
  rw [mergeSub]
  by_cases he : subOpts.isEmpty
  · rw [if_pos he]; exact h
  · rw [if_neg he]; exact keysNodup_updateMany h

theorem keysNodup_handlePluginRequired {v : Val} {key k' : String}
    {st st' : Store} (hok : handlePluginRequired v key st = Except.ok (k', st'))
    (h : st.keysNodup) : st'.keysNodup := by
  cases v with
  | param optKey plug subOpts render =>
    rw [handlePluginRequired] at hok
    cases hsp : pluginOpt plug st with
    | error e => rw [hsp] at hok; simp at hok
    | ok st₁ =>
      rw [hsp] at hok
      simp only [ok_bind] at hok
      cases hok
      exact keysNodup_mergeSub (keysNodup_pluginOpt hsp h)
  | pynone => cases hok; exact h
  | str s => cases hok; exact h
  | bool b => cases hok; exact h
  | int n => cases hok; exact h
  | list xs => cases hok; exact h
  | tuple xs => cases hok; exact h

theorem keysNodup_handleAll {xs : List Val} :
    ∀ {key k' : String} {st st' : Store},
      handleAll xs key st = Except.ok (k', st') → st.keysNodup →
      st'.keysNodup := by
  induction xs with
  | nil =>
    intro key k' st st' hok h
    cases hok
    exact h
  | cons x rest ih =>
    intro key k' st st' hok h
    rw [handleAll] at hok
    cases hx : handlePluginRequired x key st with
    | error e => rw [hx] at hok; simp at hok
    | ok r =>
      rw [hx] at hok
      simp only [ok_bind] at hok
      exact ih hok (keysNodup_handlePluginRequired hx h)

theorem keysNodup_pluginStage {g : Group} {plugin : Option String}
    {st st' : Store} (hok : pluginStage g plugin st = Except.ok st')
    (h : st.keysNodup) : st'.keysNodup := by
  rw [pluginStage] at hok
  by_cases hg : g.plugin = PluginAttr.ptrue
  · rw [if_pos hg] at hok
    cases hsp : setPlugins g.name st with
    | error e => rw [hsp] at hok; simp at hok
    | ok st₁ =>
      rw [hsp] at hok
      simp only [ok_bind] at hok
      exact keysNodup_pluginOpt hok (keysNodup_setPlugins hsp h)
  · rw [if_neg hg] at hok
    simp only [ok_bind] at hok
    exact keysNodup_pluginOpt hok h

theorem keysNodup_tupleStage {value : Val} {key k' : String} {v' : Val}
    {st st' : Store} (hok : tupleStage value key st = Except.ok (k', v', st'))
    (h : st.keysNodup) : st'.keysNodup := by
  cases value with
  | tuple xs =>
    rw [tupleStage] at hok
    cases hx : handleAll xs key st with
    | error e => rw [hx] at hok; simp at hok
    | ok r =>
      rw [hx] at hok
      simp only [ok_bind] at hok
      cases hok
      exact keysNodup_handleAll hx h
  | pynone => cases hok; exact h
  | str s => cases hok; exact h
  | bool b => cases hok; exact h
  | int n => cases hok; exact h
  | list xs => cases hok; exact h
  | param a b c d => cases hok; exact h

theorem keysNodup_handlePriorityList {k : String} {vs : List Val} {p : Nat}
    {st st' : Store} (hok : handlePriorityList k vs p st = Except.ok st')
    (h : st.keysNodup) : st'.keysNodup := by
  rw [handlePriorityList] at hok
  have herase : (Store.keys (st.eraseKey k)).Nodup := keysNodup_eraseKey k h
  have hnot : k ∉ Store.keys (st.eraseKey k) := not_mem_keys_eraseKey
  rcases hlk : st.lookupVal k with _ | v
  · rw [hlk] at hok
    cases hok
    exact keysNodup_insertPrio hnot herase
  · rw [hlk] at hok
    cases v with
    | list ys =>
      simp only [Except.ok.injEq] at hok
      subst hok
      exact keysNodup_insertPrio hnot herase
    | pynone => simp at hok
    | str s => simp at hok
    | bool b => simp at hok
    | int n => simp at hok
    | tuple ys => simp at hok
    | param a b c d => simp at hok

theorem keysNodup_multiBranch {key : String} {value : Val}
    {priority : Option Nat} {st st' : Store}
    (hok : multiBranch key value priority st = Except.ok st')
    (h : st.keysNodup) : st'.keysNodup := by
  rw [multiBranch] at hok
  cases hx : handleAll (listify value) key st with
  | error e => rw [hx] at hok; simp at hok
  | ok r =>
    rw [hx] at hok
    simp only [ok_bind] at hok
    have hr : (r.2 : Store).keysNodup := by
      obtain ⟨k', st₁⟩ := r
      exact keysNodup_handleAll hx h
    cases priority with
    | none => exact keysNodup_appendMulti hok hr
    | some p => exact keysNodup_handlePriorityList hok hr

theorem keysNodup_singleBranch {key : String} {value : Val}
    {priority : Option Nat} {st st' : Store}
    (hok : singleBranch key value priority st = Except.ok st')
    (h : st.keysNodup) : st'.keysNodup := by
  rw [singleBranch] at hok
  cases hx : handlePluginRequired value key st with
  | error e => rw [hx] at hok; simp at hok
  | ok r =>
    rw [hx] at hok
    simp only [ok_bind] at hok
    obtain ⟨k', st₁⟩ := r
    have hr : st₁.keysNodup := keysNodup_handlePluginRequired hx h
    cases priority with
    | none =>
      cases hok
      exact keysNodup_updateVal k' value hr
    | some p =>
      cases hok
      exact keysNodup_insertPrio not_mem_keys_eraseKey
        (keysNodup_eraseKey k' hr)

theorem keysNodup_set {g : Group} {key : String} {value : Val}
    {condition : Cond} {castBool multi : Bool} {plugin : Option String}
    {priority : Option Nat} {st st' : Store}
    (hok : OptionsGroup.set_ g key value condition castBool multi plugin
      priority st = Except.ok st')
    (h : st.keysNodup) : st'.keysNodup := by
  rw [OptionsGroup.set_] at hok
  by_cases hc : condition.proceeds value
  · rw [if_pos hc] at hok
    by_cases hcast : (castBool && !value.truthy) = true
    · rw [if_pos hcast] at hok
      cases hok
      exact keysNodup_eraseKey key h
    · rw [if_neg hcast] at hok
      cases hps : pluginStage g plugin st with
      | error e => rw [hps] at hok; simp at hok
      | ok st₁ =>
        rw [hps] at hok
        simp only [ok_bind] at hok
        rw [afterPlugin] at hok
        have h₁ := keysNodup_pluginStage hps h
        cases hts : tupleStage (if castBool then Val.str "true" else value) key st₁ with
        | error e => rw [hts] at hok; simp at hok
        | ok r =>
          rw [hts] at hok
          simp only [ok_bind] at hok
          have h₂ : (r.2.2 : Store).keysNodup := by
            obtain ⟨k', v', st₂⟩ := r
            exact keysNodup_tupleStage hts h₁
          by_cases hm : multi
          · rw [if_pos hm] at hok
            exact keysNodup_multiBranch hok h₂
          · rw [if_neg hm] at hok
            exact keysNodup_singleBranch hok h₂
  · rw [if_neg hc] at hok
    cases hok
    exact h

theorem cacheLookup_update_self {k : String} {g : GroupInst} :
    ∀ {c : List (String × GroupInst)}, (cacheUpdate c k g).lookup k = some g := by
  intro c
  induction c with
  | nil => simp [cacheUpdate, List.lookup]
  | cons e rest ih =>
    obtain ⟨k', g'⟩ := e
    by_cases hk : k' = k
    · rw [cacheUpdate, if_pos hk]
      simp [List.lookup]
    · rw [cacheUpdate, if_neg hk]
      rw [List.lookup]
      have : (k == k') = false := beq_eq_false_iff_ne.mpr (fun h => hk h.symm)
      rw [this]
      exact ih

theorem cacheUpdate_self_of_lookup {k : String} {g : GroupInst} :
    ∀ {c : List (String × GroupInst)}, c.lookup k = some g →
      cacheUpdate c k g = c := by
  intro c
  induction c with
  | nil => intro h; simp [List.lookup] at h
  | cons e rest ih =>
    obtain ⟨k', g'⟩ := e
    intro h
    rw [List.lookup] at h
    by_cases hk : k' = k
    · subst hk
      rw [beq_self_eq_true] at h
      simp only [Option.some.injEq] at h
      subst h
      rw [cacheUpdate, if_pos rfl]
    · have hbeq : (k == k') = false := beq_eq_false_iff_ne.mpr (fun h' => hk h'.symm)
      rw [hbeq] at h
      rw [cacheUpdate, if_neg hk, ih h]

/-! ### Claims -/

/-- C1: For every Section and every sequence of mutation-primitive calls on
its Option Store, keys are compared and looked up by their current string
form (the store is keyed by the key strings), and each key string maps to
at most one entry: from any store satisfying the invariant, a sequence of
`_set` calls that completes without raising yields a store whose key
strings are pairwise distinct — a repeatable (multi) option lives as an
ordered list value under that one entry, never as duplicate keys. -/
theorem C1_store_single_entry_invariant (calls : List SetCall) :
    ∀ {st st' : Store}, st.keysNodup → applyCalls calls st = Except.ok st' →
      st'.keysNodup := by
  induction calls with
  | nil =>
    intro st st' h hok
    cases hok
    exact h
  | cons c rest ih =>
    intro st st' h hok
    rw [applyCalls] at hok
    cases hs : OptionsGroup.set_ c.group c.key c.value c.condition c.castBool
        c.multi c.plugin c.priority st with
    | error e => rw [hs] at hok; simp at hok
    | ok st₁ =>
      rw [hs] at hok
      simp only [ok_bind] at hok
      exact ih (keysNodup_set hs h) hok

/-- Witness for C1: a concrete two-call sequence (a plugin-backed set, then
a multi append on the same key) keeps the key strings pairwise distinct. -/
theorem C1_store_single_entry_invariant_witness :
    Store.keysNodup [("plugin", Val.list [Val.str "python"]),
      ("wsgi", Val.str "app.py"),
      ("error-page-404", Val.list [Val.str "/404.html"])] :=
  @C1_store_single_entry_invariant
    [⟨⟨PluginAttr.ptrue, "python"⟩, "wsgi", Val.str "app.py", Cond.sentinelTrue,
        false, false, Option.none, Option.none⟩,
      ⟨Group.plain, "error-page-404", Val.str "/404.html", Cond.sentinelTrue,
        false, true, Option.none, Option.none⟩]
    []
    [("plugin", Val.list [Val.str "python"]), ("wsgi", Val.str "app.py"),
      ("error-page-404", Val.list [Val.str "/404.html"])]
    (by simp [Store.keysNodup, Store.keys]) rfl

/-- C10: accessing an option-group attribute through the `Options`
descriptor with no instance (`section is None`, i.e. access on the Section
class itself) or on an object without the `_options_objects` cache
attribute returns the option-group type unchanged and constructs no
instance (the target object is untouched). -/
theorem C10_class_access_returns_type (t : String) :
    Options.get t Option.none = (GetResult.typeRef t, Option.none) ∧
      ∀ s : SectionObj, s.optionsObjects = Option.none →
        Options.get t (some s) = (GetResult.typeRef t, some s) := by
  refine ⟨rfl, ?_⟩
  intro s h
  rw [Options.get, h]

/-- Witness for C10: the class-level access and an instance lacking the
cache attribute both yield the type reference. -/
theorem C10_class_access_returns_type_witness :
    Options.get "Networking" (some ⟨7, Option.none, 0⟩) =
      (GetResult.typeRef "Networking", some ⟨7, Option.none, 0⟩) :=
  (C10_class_access_returns_type "Networking").2 ⟨7, Option.none, 0⟩ rfl

/-- C9: on a Section carrying the option-group cache, the first access to a
given option-group attribute constructs exactly one instance of that group
bound to this Section (its `_section` is this Section) and caches it under
the group-type key; every later access returns that identical cached
instance with the Section state unchanged, so each option-group type has at
most one live instance per Section. -/
theorem C9_group_cache_identity (s : SectionObj)
    (cache : List (String × GroupInst)) (t : String)
    (hcache : s.optionsObjects = some cache)
    (hmiss : cache.lookup t = Option.none) :
    ∃ obj s', Options.get t (some s) = (GetResult.inst obj, some s') ∧
      obj.typeName = t ∧ obj.sectionId = s.id ∧
      s'.optionsObjects = some (cacheUpdate cache t obj) ∧
      Options.get t (some s') = (GetResult.inst obj, some s') := by
  refine ⟨⟨t, s.id, s.nextId⟩,
    { s with
      optionsObjects := some (cacheUpdate cache t ⟨t, s.id, s.nextId⟩)
      nextId := s.nextId + 1 }, ?_, rfl, rfl, rfl, ?_⟩
  · simp only [Options.get, hcache, hmiss]
  · simp only [Options.get, cacheLookup_update_self]
    rw [cacheUpdate_self_of_lookup cacheLookup_update_self]

/-- Witness for C9 at a concrete Section with an empty cache: constructing,
caching and re-reading the `Workers` group instance. -/
theorem C9_group_cache_identity_witness :
    ∃ obj s', Options.get "Workers" (some ⟨3, some [], 0⟩) =
        (GetResult.inst obj, some s') ∧
      obj.typeName = "Workers" ∧ obj.sectionId = 3 ∧
      s'.optionsObjects = some (cacheUpdate [] "Workers" obj) ∧
      Options.get "Workers" (some s') = (GetResult.inst obj, some s') :=
  C9_group_cache_identity ⟨3, some [], 0⟩ [] "Workers" rfl rfl

theorem proceeds_sentinel_of_ne {v : Val} (h : v ≠ Val.pynone) :
    Cond.sentinelTrue.proceeds v = true := by
  cases v with
  | pynone => exact absurd rfl h
  | str s => rfl
  | bool b => rfl
  | int n => rfl
  | list xs => rfl
  | tuple xs => rfl
  | param a b c d => rfl

theorem truthy_ne_pynone {v : Val} (h : v.truthy = true) : v ≠ Val.pynone := by
  intro he
  subst he
  simp [Val.truthy] at h

theorem tupleStage_plain {v : Val} (h : v.plain = true) (key : String)
    (st : Store) : tupleStage v key st = Except.ok (key, v, st) := by
  cases v with
  | tuple xs => simp [Val.plain] at h
  | pynone => rfl
  | str s => rfl
  | bool b => rfl
  | int n => rfl
  | list xs => rfl
  | param a b c d => rfl

/-- `_set` on a plain group with a plain value, no cast, no multi, no
priority: a straight ordered-mapping assignment. -/
theorem set_plain_simple {k : String} {v : Val} {st : Store}
    (hplain : v.plain = true) (hv : v ≠ Val.pynone) :
    OptionsGroup.set_ Group.plain k v Cond.sentinelTrue false false
      Option.none Option.none st = Except.ok (st.updateVal k v) := by
  rw [OptionsGroup.set_, if_pos (proceeds_sentinel_of_ne hv)]
  simp [afterPlugin, tupleStage_plain hplain, singleBranch,
    handlePluginRequired_plain hplain, pluginStage, pluginOpt, Group.plain]

/-- `_set` with `cast=bool` and a truthy value stores the literal
`"true"`. -/
theorem set_flag_true {k : String} {v : Val} {st : Store}
    (hv : v.truthy = true) :
    OptionsGroup.set_ Group.plain k v Cond.sentinelTrue true false
      Option.none Option.none st
      = Except.ok (st.updateVal k (Val.str "true")) := by
  rw [OptionsGroup.set_,
    if_pos (proceeds_sentinel_of_ne (truthy_ne_pynone hv))]
  simp [afterPlugin, hv, tupleStage, singleBranch, handlePluginRequired,
    pluginStage, pluginOpt, Group.plain]

/-- `_set` with `cast=bool` and a falsy (non-`None`) value deletes the
key's entry. -/
theorem set_flag_false {k : String} {w : Val} {st : Store}
    (hw₁ : w.truthy = false) (hw₂ : w ≠ Val.pynone) :
    OptionsGroup.set_ Group.plain k w Cond.sentinelTrue true false
      Option.none Option.none st = Except.ok (st.eraseKey k) := by
  rw [OptionsGroup.set_, if_pos (proceeds_sentinel_of_ne hw₂),
    if_pos (by simp [hw₁])]

/-- C2 (amended): for a key `k` with no entry in the store, a boolean-flag
mutation with a truthy value stores the literal `"true"` under `k`, and a
subsequent boolean-flag call with a falsy non-null value deletes the entry,
returning the store exactly to its state before the first call; deleting
when `k` is absent is not an error and changes nothing, so a second unset
in a row is also a no-op.  (When `k` already has an entry, the pair of
calls erases it instead of restoring it — see the counterexample.) -/
theorem C2_bool_flag_roundtrip (k : String) (v w : Val) (st : Store)
    (habs : st.lookupVal k = Option.none)
    (hv : v.truthy = true) (hw₁ : w.truthy = false) (hw₂ : w ≠ Val.pynone) :
    (OptionsGroup.set_ Group.plain k v Cond.sentinelTrue true false
        Option.none Option.none st
        = Except.ok (st.updateVal k (Val.str "true")))
    ∧ (OptionsGroup.set_ Group.plain k w Cond.sentinelTrue true false
        Option.none Option.none (st.updateVal k (Val.str "true"))
        = Except.ok st)
    ∧ (OptionsGroup.set_ Group.plain k w Cond.sentinelTrue true false
        Option.none Option.none st = Except.ok st) := by
  refine ⟨set_flag_true hv, ?_, ?_⟩
  · rw [set_flag_false hw₁ hw₂, eraseKey_updateVal, eraseKey_eq_self habs]
  · rw [set_flag_false hw₁ hw₂, eraseKey_eq_self habs]

/-- Witness for C2 at `strict` on the empty store: set `True`, unset
`False`, and a double unset. -/
theorem C2_bool_flag_roundtrip_witness :
    (OptionsGroup.set_ Group.plain "strict" (Val.bool true) Cond.sentinelTrue
        true false Option.none Option.none []
        = Except.ok (Store.updateVal [] "strict" (Val.str "true")))
    ∧ (OptionsGroup.set_ Group.plain "strict" (Val.bool false) Cond.sentinelTrue
        true false Option.none Option.none
        (Store.updateVal [] "strict" (Val.str "true")) = Except.ok [])
    ∧ (OptionsGroup.set_ Group.plain "strict" (Val.bool false) Cond.sentinelTrue
        true false Option.none Option.none [] = Except.ok []) :=
  C2_bool_flag_roundtrip "strict" (Val.bool true) (Val.bool false) []
    rfl rfl rfl (by simp)

/-- Counterexample to C2 as stated: when the key already has an entry
(`a = x`), setting the flag truthy then falsy does not return the store to
its prior state — the original entry is erased, not restored. -/
theorem C2_counterexample :
    ((OptionsGroup.set_ Group.plain "a" (Val.bool true) Cond.sentinelTrue
        true false Option.none Option.none [("a", Val.str "x")]) >>=
      (OptionsGroup.set_ Group.plain "a" (Val.bool false) Cond.sentinelTrue
        true false Option.none Option.none))
      = Except.ok ([] : Store)
    ∧ ([] : Store) ≠ [("a", Val.str "x")] :=
  ⟨rfl, by simp⟩

/-- C4 (amended): the mutation primitive performs no mutation whenever the
resolved condition is false: with the default sentinel condition the
resolved condition is "value is not null", so a null value — and hence any
Option Group setter called with all-null arguments, `Applications`'s basic
setter taken as the concrete instance — leaves the store unchanged, and an
explicitly supplied false (falsy) condition likewise suppresses the
mutation as a silent no-op.  (An explicitly supplied *null* condition does
not suppress the mutation: the primitive proceeds unconditionally — see
the counterexample.) -/
theorem C4_condition_false_no_mutation :
    (∀ (g : Group) (k : String) (v : Val) (cond : Cond)
      (castBool multi : Bool) (plugin : Option String)
      (priority : Option Nat) (st : Store), cond.proceeds v = false →
      OptionsGroup.set_ g k v cond castBool multi plugin priority st
        = Except.ok st)
    ∧ (∀ (g : Group) (k : String) (castBool multi : Bool)
      (plugin : Option String) (priority : Option Nat) (st : Store),
      OptionsGroup.set_ g k Val.pynone Cond.sentinelTrue castBool multi
        plugin priority st = Except.ok st)
    ∧ (∀ (g : Group) (k : String) (v : Val) (castBool multi : Bool)
      (plugin : Option String) (priority : Option Nat) (st : Store),
      OptionsGroup.set_ g k v (Cond.val false) castBool multi plugin
        priority st = Except.ok st)
    ∧ (∀ st : Store, Applications.set_basic_params [] st = Except.ok st) := by
  have hgen : ∀ (g : Group) (k : String) (v : Val) (cond : Cond)
      (castBool multi : Bool) (plugin : Option String)
      (priority : Option Nat) (st : Store), cond.proceeds v = false →
      OptionsGroup.set_ g k v cond castBool multi plugin priority st
        = Except.ok st := by
    intro g k v cond castBool multi plugin priority st h
    rw [OptionsGroup.set_, if_neg]
    simp [h]
  refine ⟨hgen, ?_, ?_, ?_⟩
  · intro g k castBool multi plugin priority st
    exact hgen g k Val.pynone Cond.sentinelTrue castBool multi plugin
      priority st rfl
  · intro g k v castBool multi plugin priority st
    exact hgen g k v (Cond.val false) castBool multi plugin priority st rfl
  · intro st
    rfl

/-- Witness for C4: a concrete suppressed call (false condition) and the
all-null `Applications` setter on a one-entry store. -/
theorem C4_condition_false_no_mutation_witness :
    (OptionsGroup.set_ Group.plain "workers" (Val.int 4) (Cond.val false)
      false false Option.none Option.none [("a", Val.str "x")]
      = Except.ok [("a", Val.str "x")])
    ∧ Applications.set_basic_params [] [("a", Val.str "x")]
      = Except.ok [("a", Val.str "x")] :=
  ⟨C4_condition_false_no_mutation.1 Group.plain "workers" (Val.int 4)
      (Cond.val false) false false Option.none Option.none
      [("a", Val.str "x")] rfl,
    C4_condition_false_no_mutation.2.2.2 [("a", Val.str "x")]⟩

/-- Counterexample to C4 as stated: an explicitly supplied *null* condition
does not suppress the mutation — `_set` proceeds (`if condition is None or
condition:`) and the store changes. -/
theorem C4_counterexample :
    OptionsGroup.set_ Group.plain "k" (Val.str "v") Cond.pynone false false
      Option.none Option.none [] = Except.ok [("k", Val.str "v")]
    ∧ ([("k", Val.str "v")] : Store) ≠ [] :=
  ⟨rfl, by simp⟩

theorem handleAll_plain {xs : List Val} (h : ∀ x ∈ xs, x.plain = true) :
    ∀ (key : String) (st : Store), handleAll xs key st = Except.ok (key, st) := by
  induction xs with
  | nil => intro key st; rfl
  | cons x rest ih =>
    intro key st
    rw [handleAll, handlePluginRequired_plain (h x (List.mem_cons_self x rest))]
    simp only [ok_bind]
    exact ih (fun y hy => h y (List.mem_cons_of_mem x hy)) key st

/-- `_set` on a plain group with plain values, `multi`, and a priority
index reduces to the `use_list` form of `handle_priority`. -/
theorem set_plain_multi_prio {k : String} {v : Val} {st : Store} {p : Nat}
    (hplain : v.plain = true) (hv : v ≠ Val.pynone)
    (hall : ∀ x ∈ listify v, x.plain = true) :
    OptionsGroup.set_ Group.plain k v Cond.sentinelTrue false true
      Option.none (some p) st = handlePriorityList k (listify v) p st := by
  rw [OptionsGroup.set_, if_pos (proceeds_sentinel_of_ne hv)]
  simp [afterPlugin, tupleStage_plain hplain, multiBranch, handleAll_plain hall,
    pluginStage, pluginOpt, Group.plain]

/-- `_set` on a plain group with a plain value, non-`multi`, and a priority
index: the existing entry is popped and discarded, the new value is
re-inserted at the priority position. -/
theorem set_plain_single_prio {k : String} {v : Val} {st : Store} {p : Nat}
    (hplain : v.plain = true) (hv : v ≠ Val.pynone) :
    OptionsGroup.set_ Group.plain k v Cond.sentinelTrue false false
      Option.none (some p) st
      = Except.ok (insertPrio k v p (st.eraseKey k)) := by
  rw [OptionsGroup.set_, if_pos (proceeds_sentinel_of_ne hv)]
  simp [afterPlugin, tupleStage_plain hplain, singleBranch,
    handlePluginRequired_plain hplain, pluginStage, pluginOpt, Group.plain]

/-- C3 (amended): a mutation with priority index `p` *strictly smaller than
the number of entries for other keys* removes any existing entry for `k`,
combines it with the new value (extending the existing list with the new
values in the multi case; replacing it otherwise), and re-inserts it so
that `k` occupies zero-based position `p`, every other entry keeping its
previous relative order.  (When `p` is at least the number of other
entries, the combined entry is never re-inserted and the option is dropped
— see the counterexample.) -/
theorem C3_priority_placement (k : String) (v : Val) (st : Store) (p : Nat)
    (hplain : v.plain = true) (hv : v ≠ Val.pynone)
    (hp : p < (st.eraseKey k).length) :
    ((∀ x ∈ listify v, x.plain = true) → ∀ xs, st.getListD k = some xs →
      ∃ st', OptionsGroup.set_ Group.plain k v Cond.sentinelTrue false true
          Option.none (some p) st = Except.ok st'
        ∧ st'.get? p = some (k, Val.list (xs ++ listify v))
        ∧ st'.eraseIdx p = st.eraseKey k)
    ∧ (∃ st', OptionsGroup.set_ Group.plain k v Cond.sentinelTrue false false
          Option.none (some p) st = Except.ok st'
        ∧ st'.get? p = some (k, v)
        ∧ st'.eraseIdx p = st.eraseKey k) := by
  constructor
  · intro hall xs hxs
    rw [set_plain_multi_prio hplain hv hall]
    rw [Store.getListD] at hxs
    rcases hlk : st.lookupVal k with _ | v'
    · rw [hlk] at hxs
      simp only [Option.some.injEq] at hxs
      subst hxs
      refine ⟨insertPrio k (Val.list (listify v)) p (st.eraseKey k), ?_, ?_, ?_⟩
      · rw [handlePriorityList, hlk]
      · rw [insertPrio_get hp]
        simp
      · exact insertPrio_eraseIdx hp
    · rw [hlk] at hxs
      cases v' with
      | list ys =>
        simp only [Option.some.injEq] at hxs
        subst hxs
        refine ⟨insertPrio k (Val.list (ys ++ listify v)) p (st.eraseKey k),
          ?_, insertPrio_get hp, insertPrio_eraseIdx hp⟩
        simp [handlePriorityList, hlk]
      | pynone => simp at hxs
      | str s => simp at hxs
      | bool b => simp at hxs
      | int n => simp at hxs
      | tuple ys => simp at hxs
      | param a b c d => simp at hxs
  · rw [set_plain_single_prio hplain hv]
    exact ⟨insertPrio k v p (st.eraseKey k), rfl,
      insertPrio_get hp, insertPrio_eraseIdx hp⟩

/-- Witness for C3: re-prioritizing `b` to position 0 in a three-entry
store, in both the multi (list-extending) and plain forms. -/
theorem C3_priority_placement_witness :
    (∃ st', OptionsGroup.set_ Group.plain "b" (Val.list [Val.str "n"])
        Cond.sentinelTrue false true Option.none (some 0)
        [("a", Val.str "1"), ("b", Val.list [Val.str "2"]), ("c", Val.str "3")]
        = Except.ok st'
      ∧ st'.get? 0 = some ("b", Val.list ([Val.str "2"] ++ listify (Val.list [Val.str "n"])))
      ∧ st'.eraseIdx 0 = Store.eraseKey
          [("a", Val.str "1"), ("b", Val.list [Val.str "2"]), ("c", Val.str "3")] "b") :=
  (C3_priority_placement "b" (Val.list [Val.str "n"])
      [("a", Val.str "1"), ("b", Val.list [Val.str "2"]), ("c", Val.str "3")] 0
      rfl (by simp) (by simp [Store.eraseKey])).1
    (by intro x hx; simp [listify] at hx; subst hx; rfl)
    [Val.str "2"] rfl

/-- Counterexample to C3 as stated: with the store holding only `k` itself,
priority 0 does not leave `k` at position 0 — the rebuild loop never
reaches the priority position and the entry is dropped entirely. -/
theorem C3_counterexample :
    OptionsGroup.set_ Group.plain "k" (Val.str "y") Cond.sentinelTrue false
      false Option.none (some 0) [("k", Val.str "x")] = Except.ok ([] : Store)
    ∧ Store.lookupVal [] "k" = Option.none :=
  ⟨rfl, rfl⟩

/-- The plugin names registered by the plugin-activation stage of one
`_set` call, in order: the owning group's display name when its `plugin`
class attribute is literally `True`, then the explicit `plugin` argument
when it is truthy. -/
def activationNames (g : Group) (plugin : Option String) : List Val :=
  (if g.plugin = PluginAttr.ptrue then [Val.str g.name] else [])
    ++ (match plugin with
        | some s => if s ≠ "" then [Val.str s] else []
        | Option.none => [])

theorem pluginOpt_registers {plugin : Option String} {st : Store}
    {ps : List Val} (hps : st.getListD "plugin" = some ps) :
    ∃ st₁, pluginOpt plugin st = Except.ok st₁ ∧
      st₁.getListD "plugin" = some (ps ++ (match plugin with
        | some s => if s ≠ "" then [Val.str s] else []
        | Option.none => [])) := by
  cases plugin with
  | none => exact ⟨st, rfl, by simpa using hps⟩
  | some s =>
    by_cases hs : s ≠ ""
    · obtain ⟨st₁, hap, hgl⟩ := getListD_appendMulti [Val.str s] hps
      refine ⟨st₁, ?_, ?_⟩
      · rw [pluginOpt, if_pos hs]
        exact hap
      · simp [hs, hgl]
    · refine ⟨st, ?_, ?_⟩
      · rw [pluginOpt, if_neg hs]
        rfl
      · simp [hs, hps]

theorem pluginStage_registers {g : Group} {plugin : Option String}
    {st : Store} {ps : List Val} (hps : st.getListD "plugin" = some ps) :
    ∃ st₁, pluginStage g plugin st = Except.ok st₁ ∧
      st₁.getListD "plugin" = some (ps ++ activationNames g plugin) := by
  by_cases hg : g.plugin = PluginAttr.ptrue
  · obtain ⟨st₀, hap, hgl0⟩ := getListD_appendMulti [Val.str g.name] hps
    obtain ⟨st₁, hop, hgl1⟩ := pluginOpt_registers hgl0
    refine ⟨st₁, ?_, ?_⟩
    · rw [pluginStage, if_pos hg]
      rw [show setPlugins g.name st = Except.ok st₀ from hap]
      simpa using hop
    · rw [hgl1]
      simp [activationNames, hg]
  · obtain ⟨st₁, hop, hgl1⟩ := pluginOpt_registers hps
    refine ⟨st₁, ?_, ?_⟩
    · rw [pluginStage, if_neg hg]
      simpa using hop
    · rw [hgl1]
      simp [activationNames, hg]

/-- C5 (amended): whenever the mutation primitive proceeds and does not
take the boolean-flag path, the plugin-activation stage runs first and
issues the nested mutations: the whole call factors through the
plugin-activation stage, which succeeds and appends exactly the triggered
names — the group's display name when its `plugin` attribute is `True`,
then the explicit truthy `plugin` argument — to the list under the
`plugin` key (names accumulate, duplicates allowed); and for a non-flag
call whose value is a `ParametrizedValue` carrying a truthy plugin
requirement, processing that value issues the nested mutation appending
its plugin name too.  In the plain-assignment case the registrations
survive to the final store.  (A boolean-flag call with a falsy value
mutates the store — it deletes the entry — but returns before the
plugin-activation code; a boolean-flag call with a truthy
`ParametrizedValue` replaces it by the literal `"true"` before its plugin
requirement is read: both register nothing — see the counterexample.) -/
theorem C5_plugin_activation (g : Group) (key : String) (value : Val)
    (condition : Cond) (castBool multi : Bool) (plugin : Option String)
    (priority : Option Nat) (st : Store) (ps : List Val)
    (hproceed : condition.proceeds value = true)
    (hnotdel : (castBool && !value.truthy) = false)
    (hps : st.getListD "plugin" = some ps) :
    (OptionsGroup.set_ g key value condition castBool multi plugin priority st
        = pluginStage g plugin st >>= afterPlugin key
            (if castBool then Val.str "true" else value) multi priority)
    ∧ (∃ st₁, pluginStage g plugin st = Except.ok st₁
        ∧ st₁.getListD "plugin" = some (ps ++ activationNames g plugin))
    ∧ (g.plugin = PluginAttr.ptrue → Val.str g.name ∈ activationNames g plugin)
    ∧ (∀ pn, plugin = some pn → pn ≠ "" →
        Val.str pn ∈ activationNames g plugin)
    ∧ (∀ optKey pn subOpts r, castBool = false →
        value = Val.param optKey (some pn) subOpts r → pn ≠ "" →
        ∀ (key' : String) (st₁ : Store) (qs : List Val),
          st₁.getListD "plugin" = some qs →
          ∃ st₂, setPlugins pn st₁ = Except.ok st₂
            ∧ st₂.getListD "plugin" = some (qs ++ [Val.str pn])
            ∧ handlePluginRequired value key' st₁
              = Except.ok (swapKey optKey key', mergeSub subOpts st₂))
    ∧ (multi = false → priority = Option.none → key ≠ "plugin" →
        value.plain = true →
        ∃ st₁ : Store, OptionsGroup.set_ g key value condition castBool multi plugin
            priority st
          = Except.ok (st₁.updateVal key
              (if castBool then Val.str "true" else value))
          ∧ (st₁.updateVal key
              (if castBool then Val.str "true" else value)).getListD "plugin"
            = some (ps ++ activationNames g plugin)) := by
  have hfactor : OptionsGroup.set_ g key value condition castBool multi
      plugin priority st
      = pluginStage g plugin st >>= afterPlugin key
          (if castBool then Val.str "true" else value) multi priority := by
    rw [OptionsGroup.set_, if_pos hproceed, if_neg (by simp [hnotdel])]
  refine ⟨hfactor, pluginStage_registers hps, ?_, ?_, ?_, ?_⟩
  · intro hg
    simp [activationNames, hg]
  · intro pn hpl hpn
    subst hpl
    simp [activationNames, hpn]
  · intro optKey pn subOpts r hcast hval hpn key' st₁ qs hq
    subst hval
    obtain ⟨st₂, hap, hgl⟩ := getListD_appendMulti [Val.str pn] hq
    refine ⟨st₂, hap, hgl, ?_⟩
    simp [handlePluginRequired, pluginOpt, hpn, setPlugins, hap]
  · intro hm hp hkey hplain
    subst hm
    subst hp
    obtain ⟨st₁, hstage, hgl⟩ := pluginStage_registers hps
    have hplain2 : (if castBool then Val.str "true" else value).plain = true := by
      cases castBool with
      | false => simpa using hplain
      | true => rfl
    refine ⟨st₁, ?_, ?_⟩
    · rw [hfactor, hstage]
      simp [afterPlugin, tupleStage_plain hplain2, singleBranch,
        handlePluginRequired_plain hplain2]
    · rw [getListD_updateVal_ne (Ne.symm hkey), hgl]

/-- Witness for C5 at a concrete call: a plugin-backed group plus an
explicit plugin name; the stage registers both names and they survive to
the final store of the plain assignment. -/
theorem C5_plugin_activation_witness :
    (∃ st₁, pluginStage ⟨PluginAttr.ptrue, "python"⟩ (some "geoip") []
        = Except.ok st₁
      ∧ Store.getListD st₁ "plugin"
        = some ([] ++ activationNames ⟨PluginAttr.ptrue, "python"⟩
            (some "geoip")))
    ∧ (∃ st₁ : Store, OptionsGroup.set_ ⟨PluginAttr.ptrue, "python"⟩ "wsgi"
        (Val.str "app.py") Cond.sentinelTrue false false (some "geoip")
        Option.none [] = Except.ok (st₁.updateVal "wsgi" (Val.str "app.py"))
      ∧ (st₁.updateVal "wsgi" (Val.str "app.py")).getListD "plugin"
        = some ([] ++ activationNames ⟨PluginAttr.ptrue, "python"⟩
            (some "geoip"))) := by
  have h := C5_plugin_activation ⟨PluginAttr.ptrue, "python"⟩ "wsgi"
    (Val.str "app.py") Cond.sentinelTrue false false (some "geoip")
    Option.none [] [] rfl rfl rfl
  exact ⟨h.2.1, by simpa using h.2.2.2.2.2 rfl rfl (by decide) rfl⟩

/-- Counterexample to C5 as stated: two proceeding mutations with an
activation trigger that register nothing.  A boolean-flag call with a falsy
value on a plugin-backed group deletes the entry (the store changes) and
returns before the plugin-activation code; a boolean-flag call with a
truthy `ParametrizedValue` carrying a plugin requirement stores the literal
`"true"` without reading the requirement.  Neither result carries any
`plugin` entry. -/
theorem C5_counterexample :
    (OptionsGroup.set_ ⟨PluginAttr.ptrue, "python"⟩ "strict" (Val.bool false)
        Cond.sentinelTrue true false Option.none Option.none
        [("strict", Val.str "true")] = Except.ok ([] : Store)
      ∧ ([] : Store) ≠ [("strict", Val.str "true")]
      ∧ Store.lookupVal [] "plugin" = Option.none)
    ∧ (OptionsGroup.set_ Group.plain "r"
        (Val.param Option.none (some "geoip") [] "x") Cond.sentinelTrue true
        false Option.none Option.none [] = Except.ok [("r", Val.str "true")]
      ∧ Store.lookupVal [("r", Val.str "true")] "plugin" = Option.none) :=
  ⟨⟨rfl, by simp, rfl⟩, rfl, rfl⟩

/-- `_set` on a plain group with a plain value, `multi`, no priority:
`setdefault`-and-extend on the key's list entry. -/
theorem set_plain_multi {k : String} {v : Val} {st : Store}
    (hplain : v.plain = true) (hv : v ≠ Val.pynone)
    (hall : ∀ x ∈ listify v, x.plain = true) :
    OptionsGroup.set_ Group.plain k v Cond.sentinelTrue false true
      Option.none Option.none st = st.appendMulti k (listify v) := by
  rw [OptionsGroup.set_, if_pos (proceeds_sentinel_of_ne hv)]
  simp [afterPlugin, tupleStage_plain hplain, multiBranch, handleAll_plain hall,
    pluginStage, pluginOpt, Group.plain]

/-- C7: `Routing.set_error_page(status, html_fpath)` raises a configuration
error exactly when the status is not one of 403, 404, 500; for a supported
status it raises nothing and appends the HTML path as one more element of
the multi-valued `error-page-<status>` option. -/
theorem C7_error_page_status (status : Int) (fpath : String) (st : Store) :
    ((∃ m, Routing.set_error_page status fpath st
        = Except.error (PyErr.configuration m)) ↔ status ∉ errorPageStatuses)
    ∧ (status ∈ errorPageStatuses →
        Routing.set_error_page status fpath st
          = st.appendMulti ("error-page-" ++ toString status) [Val.str fpath])
    ∧ (status ∈ errorPageStatuses → ∀ xs,
        st.getListD ("error-page-" ++ toString status) = some xs →
        ∃ st', Routing.set_error_page status fpath st = Except.ok st'
          ∧ st'.getListD ("error-page-" ++ toString status)
            = some (xs ++ [Val.str fpath])) := by
  have hset : status ∈ errorPageStatuses →
      Routing.set_error_page status fpath st
        = st.appendMulti ("error-page-" ++ toString status) [Val.str fpath] := by
    intro hmem
    rw [Routing.set_error_page, if_pos hmem]
    exact set_plain_multi rfl (by simp) (by intro x hx; simp [listify] at hx; subst hx; rfl)
  refine ⟨⟨?_, ?_⟩, hset, ?_⟩
  · rintro ⟨m, hm⟩ hmem
    rw [hset hmem, Store.appendMulti] at hm
    rcases hlk : st.lookupVal ("error-page-" ++ toString status) with _ | v
    · rw [hlk] at hm; simp at hm
    · rw [hlk] at hm
      cases v with
      | list ys => simp at hm
      | pynone => simp at hm
      | str s => simp at hm
      | bool b => simp at hm
      | int n => simp at hm
      | tuple ys => simp at hm
      | param a b c d => simp at hm
  · intro hnot
    rw [Routing.set_error_page, if_neg hnot]
    exact ⟨_, rfl⟩
  · intro hmem xs hxs
    rw [hset hmem]
    exact getListD_appendMulti [Val.str fpath] hxs

/-- Witness for C7: status 404 on the empty store appends the page path
under `error-page-404`. -/
theorem C7_error_page_status_witness :
    ∃ st', Routing.set_error_page 404 "/404.html" [] = Except.ok st'
      ∧ Store.getListD st' ("error-page-" ++ toString (404 : Int))
        = some ([] ++ [Val.str "/404.html"]) :=
  (C7_error_page_status 404 "/404.html" []).2.2 (by decide) [] rfl

/-- C8 (amended): the base Option Group's initializer eagerly forwards all
initializer arguments to the base basic-parameter setter, which accepts
and silently ignores every keyword, contributing nothing to the store; but
a concrete group whose basic-parameter setter declares a fixed signature —
`Applications` taken as the instance — raises a `TypeError` when its
initializer receives a keyword outside the declared parameters.  (The
silent-ignore guarantee does not extend to every concrete group — see the
counterexample.) -/
theorem C8_unknown_keys (kwargs : List (String × Val)) (st : Store) :
    OptionsGroup.init kwargs st = Except.ok st
    ∧ ((∃ kv ∈ kwargs, ¬ Applications.paramNames.contains kv.1) →
      ∃ m, Applications.init kwargs st = Except.error (PyErr.typeErr m)) := by
  refine ⟨rfl, ?_⟩
  rintro ⟨kv, hmem, hk⟩
  rw [Applications.init, Applications.set_basic_params, if_neg]
  · exact ⟨_, rfl⟩
  · intro hall
    rw [List.all_eq_true] at hall
    exact hk (hall kv hmem)

/-- Witness for C8: the base initializer ignores a bogus keyword, and the
`Applications` initializer rejects it. -/
theorem C8_unknown_keys_witness :
    OptionsGroup.init [("dummy_key", Val.int 1)] [] = Except.ok []
    ∧ ∃ m, Applications.init [("dummy_key", Val.int 1)] []
        = Except.error (PyErr.typeErr m) :=
  ⟨(C8_unknown_keys [("dummy_key", Val.int 1)] []).1,
    (C8_unknown_keys [("dummy_key", Val.int 1)] []).2
      ⟨("dummy_key", Val.int 1), by simp, by decide⟩⟩

/-- Counterexample to C8 as stated: passing an unknown key to a concrete
group's initializer (`Applications(dummy_key=1)`) raises a `TypeError`
instead of being silently ignored. -/
theorem C8_counterexample :
    Applications.init [("dummy_key", Val.int 1)] []
      = Except.error
          (PyErr.typeErr "set_basic_params() got an unexpected keyword argument") :=
  rfl

/-- C6: `Configuration.format` raises a configuration error naming the
offending value whenever some member is not a Section; raises the
uniqueness configuration error whenever all members are Sections but two
carry non-distinct names (two unnamed Sections included); and succeeds once
every member is a Section with pairwise-distinct names, producing each
Section's rendering concatenated with blank lines between. -/
theorem C6_configuration_format (items : List ConfItem) :
    ((∃ it ∈ items, it.isSec = false) →
      ∃ bad, bad ∈ items ∧ bad.isSec = false ∧
        Configuration.format items
          = Except.error (PyErr.configuration ("`" ++ bad.display ++ "` must be a Section")))
    ∧ ((∀ it ∈ items, it.isSec = true) → ¬ (sectionNames items).Nodup →
      Configuration.format items
        = Except.error (PyErr.configuration "Section names must be unique"))
    ∧ ((∀ it ∈ items, it.isSec = true) → (sectionNames items).Nodup →
      Configuration.format items
        = Except.ok (String.intercalate "\n\n" (items.map ConfItem.render))) := by
  refine ⟨?_, ?_, ?_⟩
  · rintro ⟨it, hmem, hsec⟩
    cases hfind : items.find? (fun it => !it.isSec) with
    | none =>
      exfalso
      have := List.find?_eq_none.mp hfind it hmem
      simp [hsec] at this
    | some bad =>
      refine ⟨bad, List.mem_of_find?_eq_some hfind, ?_, ?_⟩
      · have := List.find?_some hfind
        simpa using this
      · simp only [Configuration.format, hfind]
  · intro hall hnodup
    have hfind : items.find? (fun it => !it.isSec) = Option.none :=
      List.find?_eq_none.mpr (fun x hx => by simp [hall x hx])
    simp only [Configuration.format, hfind]
    rw [if_neg hnodup]
  · intro hall hnodup
    have hfind : items.find? (fun it => !it.isSec) = Option.none :=
      List.find?_eq_none.mpr (fun x hx => by simp [hall x hx])
    simp only [Configuration.format, hfind]
    rw [if_pos hnodup]

/-- Witness for C6: two distinctly named Sections format successfully into
two blank-line-separated renderings. -/
theorem C6_configuration_format_witness :
    Configuration.format [ConfItem.sec ⟨some "uwsgi", []⟩,
        ConfItem.sec ⟨some "another", []⟩]
      = Except.ok (String.intercalate "\n\n"
          ([ConfItem.sec ⟨some "uwsgi", []⟩,
            ConfItem.sec ⟨some "another", []⟩].map ConfItem.render)) :=
  (C6_configuration_format [ConfItem.sec ⟨some "uwsgi", []⟩,
      ConfItem.sec ⟨some "another", []⟩]).2.2
    (by intro it hit
        rcases List.mem_cons.mp hit with h | h
        · subst h; rfl
        · rcases List.mem_cons.mp h with h' | h'
          · subst h'; rfl
          · simp at h')
    (by simp [sectionNames])

end Uwsgiconf
